import Mathlib

/-!
Shallow embedding of the Reflector/Informer/Store cache triad of the
gardener dashboard kube-client (`packages/kube-client/lib/cache`), together
with the `BackoffManager` and the helper `randomize` defined in the
Reflector source file.  Definitions are transcribed from the JavaScript
source; the line references in the doc comments point into the source
files (`Reflector` source is `src/unnamed/part_001`).
-/

namespace DashboardCache

/-- The metadata fields of a resource object that the cache reads:
`metadata.uid` (the default store key path) and `metadata.resourceVersion`.
Each may be absent (`undefined` in JavaScript). -/
structure Metadata where
  uid : Option String
  resourceVersion : Option String
deriving DecidableEq, Repr

/-- A resource object as seen by the cache: the envelope fields
`apiVersion` and `kind` plus the nested `metadata` record; every field may
be absent (`undefined`). -/
structure KubeObject where
  apiVersion : Option String
  kind : Option String
  metadata : Option Metadata
deriving DecidableEq, Repr

/-- Key derivation of the store (Store.js 24-26): lodash
`get(object, 'metadata.uid')` with the default key path `metadata.uid`;
yields `none` (the `undefined` key) when a path segment is missing. -/
def keyFunc (object : KubeObject) : Option String :=
  object.metadata.bind Metadata.uid

/-- The backing `Map` of a store: an insertion-ordered association list
with unique keys, keys being strings or the `undefined` key `none`. -/
abbrev StoreMap := List (Option String × KubeObject)

/-- JavaScript `Map.prototype.get`: the value stored under the key, if any. -/
def mapGet : StoreMap → Option String → Option KubeObject
  | [], _ => none
  | p :: m, k => if p.1 = k then some p.2 else mapGet m k

/-- JavaScript `Map.prototype.has`. -/
def mapHasKey : StoreMap → Option String → Bool
  | [], _ => false
  | p :: m, k => p.1 == k || mapHasKey m k

/-- JavaScript `Map.prototype.set`: replace the value in place when the key
is present, otherwise append a new entry at the end. -/
def mapSet : StoreMap → Option String → KubeObject → StoreMap
  | [], k, v => [(k, v)]
  | p :: m, k, v => if p.1 = k then (k, v) :: m else p :: mapSet m k v

/-- JavaScript `Map.prototype.delete`: remove the entry with the key, if
present; a no-op otherwise. -/
def mapDelete : StoreMap → Option String → StoreMap
  | [], _ => []
  | p :: m, k => if p.1 = k then m else p :: mapDelete m k

/-- The observable state of a `Store` (Store.js 17-22): the backing map and
the `hasSynced` one-shot latch (a promise in the source, resolved with
`true` on the first `replace`; modelled as a boolean that starts `false`). -/
structure Store where
  map : StoreMap
  synced : Bool
deriving DecidableEq, Repr

/-- A store is created with an empty map and an unresolved `hasSynced`
promise (Store.js 17-22). -/
def Store.init : Store :=
  ⟨[], false⟩

/-- Store.js 40-42: `clear()` empties the backing map. -/
def Store.clear (s : Store) : Store :=
  { s with map := [] }

/-- Store.js 84-87: `add(object)` sets `map[key(object)] = object`. -/
def Store.add (s : Store) (object : KubeObject) : Store :=
  { s with map := mapSet s.map (keyFunc object) object }

/-- Store.js 89-92: `update(object)` sets `map[key(object)] = object`
(indistinguishable from `add`). -/
def Store.update (s : Store) (object : KubeObject) : Store :=
  { s with map := mapSet s.map (keyFunc object) object }

/-- Store.js 44-47: `delete(object)` removes `key(object)`; silently a
no-op when the key is absent. -/
def Store.delete (s : Store) (object : KubeObject) : Store :=
  { s with map := mapDelete s.map (keyFunc object) }

/-- Store.js 94-101: `replace(items)` clears the map, inserts every item
under its derived key, then fulfills `hasSynced` with `true` (resolving a
promise again is idempotent, so `synced` simply becomes `true`). -/
def Store.replace (s : Store) (items : List KubeObject) : Store :=
  { map := items.foldl (fun m object => mapSet m (keyFunc object) object) s.clear.map,
    synced := true }

/-- Store.js 49-51. -/
def Store.getByKey (s : Store) (k : Option String) : Option KubeObject :=
  mapGet s.map k

/-- Store.js 75-77. -/
def Store.hasByKey (s : Store) (k : Option String) : Bool :=
  mapHasKey s.map k

/-- One call to a store mutation method, used to express properties over
arbitrary sequences of subsequent store calls. -/
inductive StoreOp
  | add (object : KubeObject)
  | update (object : KubeObject)
  | del (object : KubeObject)
  | replace (items : List KubeObject)
  | clear
deriving DecidableEq, Repr

/-- Apply one store mutation call. -/
def applyStoreOp (s : Store) : StoreOp → Store
  | .add object => s.add object
  | .update object => s.update object
  | .del object => s.delete object
  | .replace items => s.replace items
  | .clear => s.clear

/-- Apply a sequence of store mutation calls, in order. -/
def applyStoreOps (s : Store) (ops : List StoreOp) : Store :=
  ops.foldl applyStoreOp s

/-! ## Informer

Informer.js 21-38: the Informer hands the Reflector a sink object whose
four methods each first delegate to the real store and then emit a named
event carrying the same argument.  The two statements of each method body
are transcribed as a list of primitive actions, executed in order; an
emitted event records the store contents that a synchronous subscriber
observes at the moment of emission. -/

/-- Payload of an Informer event: the argument of the corresponding store
mutation (a list of items for `REPLACE`, a single object otherwise). -/
inductive EventPayload
  | items (itemList : List KubeObject)
  | object (o : KubeObject)
deriving DecidableEq, Repr

/-- An event received by an Informer subscriber: its name, its payload and
the store contents visible to the subscriber when the event is handled
(event emission is synchronous in the source). -/
structure Emitted where
  name : String
  payload : EventPayload
  storeSeen : Store
deriving DecidableEq, Repr

/-- One primitive statement of an Informer sink method body: a store
mutation or an event emission. -/
inductive InformerAct
  | mutate (f : Store → Store)
  | emit (name : String) (payload : EventPayload)

/-- Informer.js 22-25: `replace (...args) { store.replace(...args); informer.emit('REPLACE', ...args) }`. -/
def informerReplaceBody (items : List KubeObject) : List InformerAct :=
  [.mutate (Store.replace · items), .emit "REPLACE" (.items items)]

/-- Informer.js 26-29: `add (object) { store.add(object); informer.emit('ADD', object) }`. -/
def informerAddBody (object : KubeObject) : List InformerAct :=
  [.mutate (Store.add · object), .emit "ADD" (.object object)]

/-- Informer.js 30-33: `update (object) { store.update(object); informer.emit('UPDATE', object) }`. -/
def informerUpdateBody (object : KubeObject) : List InformerAct :=
  [.mutate (Store.update · object), .emit "UPDATE" (.object object)]

/-- Informer.js 34-37: `delete (object) { store.delete(object); informer.emit('DELETE', object) }`. -/
def informerDeleteBody (object : KubeObject) : List InformerAct :=
  [.mutate (Store.delete · object), .emit "DELETE" (.object object)]

/-- Execute the statements of a sink method body in order over the store,
appending each emitted event (with the store contents observed at emission
time) to the event log. -/
def runInformerActs (s : Store) (log : List Emitted) : List InformerAct → Store × List Emitted
  | [] => (s, log)
  | .mutate f :: rest => runInformerActs (f s) log rest
  | .emit name payload :: rest => runInformerActs s (log ++ [⟨name, payload, s⟩]) rest

/-! ## Reflector -/

/-- The caller-supplied type attributes of the ListWatcher read by the
Reflector (part_001:77-89): `group`, `version` and `names.kind`. -/
structure ApiNames where
  kind : Option String
deriving DecidableEq, Repr

/-- The ListWatcher attributes relevant to the Reflector's expected-type
check. -/
structure ListWatcherInfo where
  group : Option String
  version : String
  names : Option ApiNames
deriving DecidableEq, Repr

/-- part_001:77-80: `get apiVersion` is `group/version`, or `version` when
`group` is falsy (absent or the empty string). -/
def ListWatcherInfo.apiVersion (lw : ListWatcherInfo) : String :=
  match lw.group with
  | some g => if g = "" then lw.version else g ++ "/" ++ lw.version
  | none => lw.version

/-- part_001:82-85: `get kind` is `names.kind` with `names` defaulting to
the empty record, so the result may be absent. -/
def ListWatcherInfo.kindName (lw : ListWatcherInfo) : Option String :=
  (lw.names.getD ⟨none⟩).kind

/-- part_001:262: a watch event object matches the expected type iff its
`apiVersion` strictly equals the reflector's `apiVersion` and its `kind`
strictly equals the reflector's `kind` (both `!==` comparisons, with
`undefined === undefined` counting as equal). -/
def expectedTypeMatches (lw : ListWatcherInfo) (object : KubeObject) : Bool :=
  object.apiVersion == some lw.apiVersion && object.kind == lw.kindName

/-- The mutable fields of a Reflector (constructor, part_001:64-75) that
the claims are about. -/
structure Reflector where
  isLastSyncResourceVersionUnavailable : Bool
  lastSyncResourceVersion : String
  paginatedResult : Bool
  stopRequested : Bool
deriving DecidableEq, Repr

/-- A freshly constructed Reflector (part_001:70-73). -/
def Reflector.initial : Reflector :=
  ⟨false, "", false, false⟩

/-- part_001:91-104: `get relistResourceVersion`. -/
def Reflector.relistResourceVersion (r : Reflector) : String :=
  if r.isLastSyncResourceVersionUnavailable then ""
  else if r.lastSyncResourceVersion = "" then "0"
  else r.lastSyncResourceVersion

/-- part_001:106-113: `stop()` sets `stopRequested` (it also destroys the
connection agent and clears the backoff idle timer, which live outside the
modelled state). -/
def Reflector.stop (r : Reflector) : Reflector :=
  { r with stopRequested := true }

/-- part_001:115-133: `async run ()` is declared without a signal
parameter and its body never references a signal, so running the reflector
registers no abort listener on the signal the Informer passes to it. -/
def reflectorRunAbortListeners : List (Reflector → Reflector) :=
  []

/-- Informer.js 53-62: `run (signal)` creates an `AbortController` `ac`,
invokes `reflector.run(ac.signal)` and returns the handle `() => ac.abort()`.
Invoking the handle runs exactly the abort listeners registered on
`ac.signal`, i.e. those contributed by `reflector.run` — of which there are
none. -/
def informerCancelHandle (r : Reflector) : Reflector :=
  reflectorRunAbortListeners.foldl (fun st f => f st) r

/-- A caller-visible error value, classified only through the three
predicates of `ApiErrors` that the Reflector consults. -/
structure KError where
  isExpired : Bool
  isTooLargeResourceVersion : Bool
  isConnectionRefused : Bool
deriving DecidableEq, Repr

/-- Outcome of one `pager.list(options)` call (the pager and transport are
external collaborators; the Reflector only sees the resolved list
`{metadata: {resourceVersion, paginated}, items}` or the thrown error). -/
inductive ListOutcome
  | ok (resourceVersion : String) (paginated : Bool) (items : List KubeObject)
  | err (e : KError)
deriving DecidableEq, Repr

/-- The list phase of `listAndWatch` (part_001:135-214), from computing the
relist resource version up to (but not including) the watch loop.
`listFn rv` is the outcome of `pager.list({resourceVersion: rv})`.  The
returned boolean states whether control proceeds to the watch loop
(`store.setRefreshing()` at part_001:161 is a hint with no observable
effect on the modelled store state).  Note part_001:181-187: when the
first list fails with an expired or too-large-resource-version error, the
outer catch block falls through to its final `logger.error(...); return`
even when the immediate full-list retry succeeded, so the recovered list is
discarded and the function returns early either way. -/
def listPhase (listFn : String → ListOutcome) (r : Reflector) (store : Store) :
    Reflector × Store × Bool :=
  let rv := r.relistResourceVersion
  match listFn rv with
  | .ok listRV paginated items =>
      let r1 := if rv = "0" ∧ paginated = true then { r with paginatedResult := true } else r
      let r2 := { r1 with isLastSyncResourceVersionUnavailable := false }
      let store1 := store.replace items
      let r3 := { r2 with lastSyncResourceVersion := listRV }
      (r3, store1, true)
  | .err e =>
      if e.isExpired = true ∨ e.isTooLargeResourceVersion = true then
        let r1 := { r with isLastSyncResourceVersionUnavailable := true }
        match listFn r1.relistResourceVersion with
        | .ok _ _ _ => (r1, store, false)
        | .err _ => (r1, store, false)
      else
        (r, store, false)

/-- One element produced by the watch stream iterator: either a raw
`Error` value or a `{type, object}` event record. -/
inductive WatchData
  | errorValue (e : KError)
  | event (type : String) (object : KubeObject)
deriving DecidableEq, Repr

/-- An error thrown out of `watchHandler`: the raw stream error
(part_001:254-255) or the `StatusError` built from an `ERROR` event
(part_001:258-259). -/
inductive WatchThrow
  | rawError (e : KError)
  | statusError (object : KubeObject)
deriving DecidableEq, Repr

/-- The four store mutation callbacks consumed by the Reflector, over an
arbitrary sink state (design note: the Informer supplies a sink whose
methods delegate to a real store and then emit events). -/
structure StoreSink (σ : Type) where
  add : σ → KubeObject → σ
  update : σ → KubeObject → σ
  delete : σ → KubeObject → σ

/-- The plain store as a sink. -/
def plainStoreSink : StoreSink Store :=
  ⟨Store.add, Store.update, Store.delete⟩

/-- The Informer's sink (Informer.js 21-38): each callback mutates the
underlying store and appends the corresponding named event to the log. -/
def informerSink : StoreSink (Store × List Emitted) :=
  ⟨fun st object => runInformerActs st.1 st.2 (informerAddBody object),
   fun st object => runInformerActs st.1 st.2 (informerUpdateBody object),
   fun st object => runInformerActs st.1 st.2 (informerDeleteBody object)⟩

/-- The body of the `for await` loop of `watchHandler` (part_001:252-287)
for one stream element, over the sink state `σ` and the
`lastSyncResourceVersion` cursor: raw errors and `ERROR` events are
thrown; an object whose `(apiVersion, kind)` does not match the expected
type is logged and skipped; otherwise the store mutation for the event
type is dispatched and the cursor advances exactly when the object carries
a truthy `metadata.resourceVersion`. -/
def watchHandlerStep {σ : Type} (lw : ListWatcherInfo) (sink : StoreSink σ)
    (st : σ × String) : WatchData → Except WatchThrow (σ × String)
  | .errorValue e => .error (.rawError e)
  | .event type object =>
      if type = "ERROR" then .error (.statusError object)
      else
        let resourceVersion := object.metadata.bind Metadata.resourceVersion
        if expectedTypeMatches lw object = false then .ok st
        else
          let sinkState :=
            if type = "ADDED" then sink.add st.1 object
            else if type = "MODIFIED" then sink.update st.1 object
            else if type = "DELETED" then sink.delete st.1 object
            else st.1
          let cursor :=
            match resourceVersion with
            | some rv => if rv = "" then st.2 else rv
            | none => st.2
          .ok (sinkState, cursor)

/-! ## BackoffManager and randomize -/

/-- part_001:21-23: `randomize(duration)` is
`Math.round(duration * (Math.random() + 1.0))`; `r` stands for the
`Math.random()` draw (uniform in `[0, 1)`), and JavaScript `Math.round(x)`
is `⌊x + 1/2⌋`. -/
def randomize (duration r : ℚ) : ℤ :=
  ⌊duration * (r + 1) + 1 / 2⌋

/-- The state of a `BackoffManager` (part_001:29-38).  The idle-reset
timer (`timeoutId`, `resetDuration`) is real-time behaviour outside the
model; the claims assume no intervening reset. -/
structure BackoffManager where
  min : ℚ
  max : ℚ
  factor : ℚ
  jitter : ℚ
  resetDuration : ℚ
  attempt : ℕ
deriving DecidableEq, Repr

/-- The constructor (part_001:30-38) with the jitter clamp
`jitter > 0 && jitter <= 1 ? jitter : 0`. -/
def mkBackoffManager (min max resetDuration factor jitter : ℚ) : BackoffManager :=
  ⟨min, max, factor, if 0 < jitter ∧ jitter ≤ 1 then jitter else 0, resetDuration, 0⟩

/-- A search bound for the greatest `t` with `f ^ t ≤ r`: when `1 < f` one
has `f ≥ 1 + 1/f.den`, so `f ^ t ≤ r` forces `t ≤ f.den * ⌈r⌉`. -/
def logSearchBound (r f : ℚ) : ℕ :=
  f.den * (⌈r⌉).toNat + 1

/-- JavaScript `Math.floor(Math.log(r) / Math.log(f))` (part_001:45).  For `1 < f`
and `1 ≤ r` this equals the greatest natural `t` with `f ^ t ≤ r`
(monotonicity of the logarithm), computed here by bounded search; for
`r < 1` the JavaScript value is some negative integer, and its only
consumer compares it against the non-negative `attempt`, for which any
negative value behaves alike, so `-1` is returned.  (The source only ever
constructs `BackoffManager` with its defaults, part_001:74, so `f = 3/2`
and `r = 75/4` in every reachable state.) -/
def logFloor (r f : ℚ) : ℤ :=
  if 1 ≤ r then ((Nat.findGreatest (fun t => f ^ t ≤ r) (logSearchBound r f) : ℕ) : ℤ)
  else -1

/-- Operation `duration()` (part_001:40-53): capture `attempt`, increment it; if the
captured attempt exceeds `⌊log(max/min)/log(factor)⌋` return `max`;
otherwise compute `min * factor ^ attempt`, apply jitter when nonzero
(`draw` is the `Math.random()` value), and return
`Math.min(Math.floor(duration), max)`.  The `clearTimeout`/`setTimeout`
pair at part_001:41-42 only reschedules the idle reset, which is outside
the model.  The first component is the returned delay, the second the
successor state. -/
def BackoffManager.duration (b : BackoffManager) (draw : ℚ) : ℚ × BackoffManager :=
  let b' : BackoffManager := { b with attempt := b.attempt + 1 }
  if logFloor (b.max / b.min) b.factor < (b.attempt : ℤ) then
    (b.max, b')
  else
    let d0 := b.min * b.factor ^ b.attempt
    let d1 := if b.jitter ≠ 0 then ((⌊(1 + b.jitter * (2 * draw - 1)) * d0⌋ : ℤ) : ℚ) else d0
    (Min.min (⌊d1⌋ : ℚ) b.max, b')

/-- The manager state after `k` calls to `duration()` (with the draws
irrelevant to the state; `0` is passed). -/
def applyCalls (b : BackoffManager) : ℕ → BackoffManager
  | 0 => b
  | k + 1 => ((applyCalls b k).duration 0).2

/-- The value returned by the `k`-th call to `duration()` (`k` starting at
0) on a jitter-free manager: the draw does not matter, `0` is passed. -/
def nthDuration (b : BackoffManager) (k : ℕ) : ℚ :=
  ((applyCalls b k).duration 0).1

/-! ## Sample values used by witnesses and counterexamples -/

/-- A sample object of kind `X` with uid `a` and resource version `1`. -/
def sampleObjA : KubeObject :=
  ⟨some "v1", some "X", some ⟨some "a", some "1"⟩⟩

/-- A second sample object with the same uid `a` but different contents. -/
def sampleObjA2 : KubeObject :=
  ⟨some "v1", some "X", some ⟨some "a", some "2"⟩⟩

/-- A sample object with uid `b`. -/
def sampleObjB : KubeObject :=
  ⟨some "v1", some "X", some ⟨some "b", some "2"⟩⟩

/-- A sample object with uid `x`. -/
def sampleObjX : KubeObject :=
  ⟨some "v1", some "X", some ⟨some "x", some "0"⟩⟩

/-- A sample object of the mismatching kind `Y` carrying a resource version. -/
def sampleObjY : KubeObject :=
  ⟨some "v1", some "Y", some ⟨some "c", some "101"⟩⟩

/-- A sample object of kind `X` whose metadata lacks a resource version. -/
def sampleObjNoRv : KubeObject :=
  ⟨some "v1", some "X", some ⟨some "c", none⟩⟩

/-- A sample ListWatcher expecting `v1, Kind=X` (no API group). -/
def sampleLW : ListWatcherInfo :=
  ⟨none, "v1", some ⟨some "X"⟩⟩

/-! ## Theorems -/

/-- C3: for every Reflector state, the relist resource version for the
next list is `""` when the unavailable flag is set, `"0"` when the flag is
clear and the cursor is empty, and the cursor itself otherwise. -/
theorem relist_resource_version_cases (r : Reflector) :
    (r.isLastSyncResourceVersionUnavailable = true → r.relistResourceVersion = "")
    ∧ (r.isLastSyncResourceVersionUnavailable = false → r.lastSyncResourceVersion = "" →
        r.relistResourceVersion = "0")
    ∧ (r.isLastSyncResourceVersionUnavailable = false → r.lastSyncResourceVersion ≠ "" →
        r.relistResourceVersion = r.lastSyncResourceVersion) := by
  refine ⟨fun h => ?_, fun h h2 => ?_, fun h h2 => ?_⟩
  · simp [Reflector.relistResourceVersion, h]
  · simp [Reflector.relistResourceVersion, h, h2]
  · simp [Reflector.relistResourceVersion, h, h2]

theorem relist_resource_version_cases_witness :
    Reflector.relistResourceVersion ⟨true, "42", false, false⟩ = ""
    ∧ Reflector.relistResourceVersion ⟨false, "", false, false⟩ = "0"
    ∧ Reflector.relistResourceVersion ⟨false, "42", false, false⟩ = "42" :=
  ⟨(relist_resource_version_cases ⟨true, "42", false, false⟩).1 rfl,
   (relist_resource_version_cases ⟨false, "", false, false⟩).2.1 rfl rfl,
   (relist_resource_version_cases ⟨false, "42", false, false⟩).2.2 rfl (by decide)⟩

/-- C2 (code bug witnessed): invoking the cancel handle returned by
`Informer.run` runs no abort listener at all, because `Reflector.run` is
declared without a signal parameter; the reflector state is left unchanged
(`stopRequested` stays `false` on a freshly started reflector), whereas a
direct `Reflector.stop()` call — the behaviour the spec requires the handle
to trigger — would set `stopRequested`. -/
theorem cancel_handle_does_not_stop_reflector :
    (informerCancelHandle Reflector.initial).stopRequested = false
    ∧ (∀ r : Reflector, informerCancelHandle r = r)
    ∧ (Reflector.stop Reflector.initial).stopRequested = true :=
  ⟨rfl, fun _ => rfl, rfl⟩

/-- C10: each Informer sink callback first applies the corresponding store
mutation and only then emits the named event, whose payload is the
identical argument; the store snapshot a synchronous subscriber observes
at emission time already contains the mutation, and no event is emitted
for an unapplied mutation. -/
theorem informer_mutates_before_emit (s : Store) (object : KubeObject)
    (items : List KubeObject) :
    runInformerActs s [] (informerReplaceBody items)
      = (s.replace items, [⟨"REPLACE", .items items, s.replace items⟩])
    ∧ runInformerActs s [] (informerAddBody object)
      = (s.add object, [⟨"ADD", .object object, s.add object⟩])
    ∧ runInformerActs s [] (informerUpdateBody object)
      = (s.update object, [⟨"UPDATE", .object object, s.update object⟩])
    ∧ runInformerActs s [] (informerDeleteBody object)
      = (s.delete object, [⟨"DELETE", .object object, s.delete object⟩]) :=
  ⟨rfl, rfl, rfl, rfl⟩

/-- C6: a watch event whose object's `(apiVersion, kind)` does not match
the Reflector's expected type is skipped entirely: for every store sink,
the sink state (hence the Store contents and, under the Informer sink, the
emitted-event log) and the `lastSyncResourceVersion` cursor are unchanged,
even when the object carries a resource version. -/
theorem watch_mismatched_kind_skipped {σ : Type} (lw : ListWatcherInfo)
    (sink : StoreSink σ) (st : σ × String) (type : String) (object : KubeObject)
    (htype : type ≠ "ERROR") (hmm : expectedTypeMatches lw object = false) :
    watchHandlerStep lw sink st (.event type object) = .ok st := by
  simp [watchHandlerStep, htype, hmm]

theorem watch_mismatched_kind_skipped_witness :
    watchHandlerStep sampleLW informerSink ((Store.init, []), "50")
      (.event "ADDED" sampleObjY) = .ok ((Store.init, []), "50") :=
  watch_mismatched_kind_skipped sampleLW informerSink ((Store.init, []), "50")
    "ADDED" sampleObjY (by decide) (by decide)

/-- C9: a type-matching ADDED/MODIFIED/DELETED watch event whose object
lacks `metadata.resourceVersion` still has its store mutation applied,
while the `lastSyncResourceVersion` cursor is left unchanged (the handler
logs an error and iteration continues, returning normally). -/
theorem watch_event_without_rv {σ : Type} (lw : ListWatcherInfo)
    (sink : StoreSink σ) (st : σ × String) (type : String) (object : KubeObject)
    (hmatch : expectedTypeMatches lw object = true)
    (hnorv : object.metadata.bind Metadata.resourceVersion = none) :
    (type = "ADDED" →
      watchHandlerStep lw sink st (.event type object) = .ok (sink.add st.1 object, st.2))
    ∧ (type = "MODIFIED" →
      watchHandlerStep lw sink st (.event type object) = .ok (sink.update st.1 object, st.2))
    ∧ (type = "DELETED" →
      watchHandlerStep lw sink st (.event type object) = .ok (sink.delete st.1 object, st.2)) := by
  refine ⟨fun h => ?_, fun h => ?_, fun h => ?_⟩ <;>
    subst h <;> simp [watchHandlerStep, hmatch, hnorv]

theorem watch_event_without_rv_witness :
    watchHandlerStep sampleLW plainStoreSink (Store.init, "50")
      (.event "ADDED" sampleObjNoRv) = .ok (Store.init.add sampleObjNoRv, "50") :=
  (watch_event_without_rv sampleLW plainStoreSink (Store.init, "50")
    "ADDED" sampleObjNoRv (by decide) (by decide)).1 rfl

/-- The list oracle of spec scenario 2 (*expired LIST recovery*): the
initial list (relist resource version `"0"`) throws an expired error, and
every other list — in particular the immediate retry with resource version
`""` — succeeds with `{metadata: {resourceVersion: "200", paginated: true},
items: []}`. -/
def recoveryListFn : String → ListOutcome := fun rv =>
  if rv = "0" then .err ⟨true, false, false⟩ else .ok "200" true []

/-- C1 counterexample: on scenario 2 (initial LIST expired, immediate
retry with resource version `""` succeeds) the list phase of
`listAndWatch` does *not* proceed as on list success — it returns early
with `isLastSyncResourceVersionUnavailable` still `true`, the store
untouched (`replace` never called, so `hasSynced` stays unresolved) and
`lastSyncResourceVersion` still `""` instead of `"200"`. -/
theorem expired_list_recovery_counterexample :
    listPhase recoveryListFn Reflector.initial Store.init
      = (⟨true, "", false, false⟩, Store.init, false)
    ∧ (listPhase recoveryListFn Reflector.initial Store.init).1.isLastSyncResourceVersionUnavailable
      = true
    ∧ (listPhase recoveryListFn Reflector.initial Store.init).2.1.synced = false
    ∧ (listPhase recoveryListFn Reflector.initial Store.init).1.lastSyncResourceVersion ≠ "200"
    ∧ (listPhase recoveryListFn Reflector.initial Store.init).2.2 = false := by
  decide

/-- C1 amended: when the initial LIST fails with an expired or
too-large-resource-version error, `listAndWatch` returns early *whatever
the immediate retry yields* (part_001:181-187 falls through to the
unconditional log-and-return of the catch block even on retry success):
the unavailable flag is left set, the store is untouched, the cursor is
unchanged, control does not reach the watch phase, and recovery only
happens on the next outer-loop iteration, whose relist resource version is
then `""`. -/
theorem expired_list_retry_returns_early (listFn : String → ListOutcome)
    (r : Reflector) (store : Store) (e : KError)
    (herr : listFn r.relistResourceVersion = .err e)
    (hexp : e.isExpired = true ∨ e.isTooLargeResourceVersion = true) :
    listPhase listFn r store
      = (⟨true, r.lastSyncResourceVersion, r.paginatedResult, r.stopRequested⟩, store, false)
    ∧ Reflector.relistResourceVersion
        ⟨true, r.lastSyncResourceVersion, r.paginatedResult, r.stopRequested⟩ = "" := by
  constructor
  · rw [listPhase, herr]
    dsimp only
    rw [if_pos hexp]
    rcases listFn (Reflector.relistResourceVersion
        ⟨true, r.lastSyncResourceVersion, r.paginatedResult, r.stopRequested⟩) with _ | _ <;> rfl
  · rfl

theorem expired_list_retry_returns_early_witness :
    listPhase recoveryListFn Reflector.initial Store.init
      = (⟨true, "", false, false⟩, Store.init, false) :=
  (expired_list_retry_returns_early recoveryListFn Reflector.initial Store.init
    ⟨true, false, false⟩ (by decide) (Or.inl rfl)).1

/-- Deleting a key from a map right after setting that key yields the same
map as deleting the key from the original map. -/
theorem mapDelete_mapSet (m : StoreMap) (k : Option String) (v : KubeObject) :
    mapDelete (mapSet m k v) k = mapDelete m k := by
  induction m with
  | nil => simp [mapSet, mapDelete]
  | cons p m ih =>
      by_cases h : p.1 = k
      · simp [mapSet, mapDelete, h]
      · simp [mapSet, mapDelete, h, ih]

/-- Deleting an absent key is a no-op on the map. -/
theorem mapDelete_of_not_hasKey (m : StoreMap) (k : Option String)
    (h : mapHasKey m k = false) : mapDelete m k = m := by
  induction m with
  | nil => rfl
  | cons p m ih =>
      rw [mapHasKey, Bool.or_eq_false_iff] at h
      have h1 : p.1 ≠ k := by simpa using h.1
      simp [mapDelete, h1, ih h.2]

/-- C8 counterexample: `add(o); delete(o)` is not a no-op on store content
when the store already held a different object under `key(o)` — `add`
overwrites the entry and `delete` then removes it, losing the prior
object. -/
theorem add_then_delete_not_noop_counterexample :
    Store.delete (Store.add ⟨[(some "a", sampleObjA)], true⟩ sampleObjA2) sampleObjA2
      ≠ ⟨[(some "a", sampleObjA)], true⟩ := by
  decide

/-- C8 amended: `add(o); delete(o)` leaves the store content equal to the
original content with `key(o)` removed (and the synced latch untouched);
in particular it is a no-op exactly on stores that did not contain
`key(o)` beforehand. -/
theorem add_then_delete_erases_key (s : Store) (object : KubeObject) :
    (s.add object).delete object = ⟨mapDelete s.map (keyFunc object), s.synced⟩
    ∧ (mapHasKey s.map (keyFunc object) = false → (s.add object).delete object = s) := by
  constructor
  · simp [Store.add, Store.delete, mapDelete_mapSet]
  · intro h
    simp [Store.add, Store.delete, mapDelete_mapSet, mapDelete_of_not_hasKey _ _ h]

theorem add_then_delete_erases_key_witness :
    Store.delete (Store.add ⟨[(some "b", sampleObjB)], false⟩ sampleObjA) sampleObjA
      = ⟨[(some "b", sampleObjB)], false⟩ :=
  (add_then_delete_erases_key ⟨[(some "b", sampleObjB)], false⟩ sampleObjA).2 (by decide)

/-- Reading back the key just set yields the value just set. -/
theorem mapGet_mapSet_self (m : StoreMap) (k : Option String) (v : KubeObject) :
    mapGet (mapSet m k v) k = some v := by
  induction m with
  | nil => simp [mapSet, mapGet]
  | cons p m ih =>
      by_cases h : p.1 = k
      · simp [mapSet, mapGet, h]
      · simp [mapSet, mapGet, h, ih]

/-- Setting one key does not change the value stored under another key. -/
theorem mapGet_mapSet_ne (m : StoreMap) (k k' : Option String) (v : KubeObject)
    (h : k ≠ k') : mapGet (mapSet m k v) k' = mapGet m k' := by
  induction m with
  | nil => simp [mapSet, mapGet, h]
  | cons p m ih =>
      by_cases hp : p.1 = k
      · simp [mapSet, mapGet, hp, h]
      · by_cases hp' : p.1 = k'
        · simp [mapSet, mapGet, hp, hp', Ne.symm h]
        · simp [mapSet, mapGet, hp, hp', ih]

/-- Key membership after a set: the old keys plus the key just set. -/
theorem mapHasKey_mapSet (m : StoreMap) (k : Option String) (v : KubeObject)
    (k' : Option String) :
    mapHasKey (mapSet m k v) k' = (mapHasKey m k' || k == k') := by
  induction m with
  | nil => simp [mapSet, mapHasKey]
  | cons p m ih =>
      by_cases hp : p.1 = k
      · simp only [mapSet, if_pos hp, mapHasKey, hp]
        cases k == k' <;> cases mapHasKey m k' <;> simp
      · simp only [mapSet, if_neg hp, mapHasKey, ih]
        cases p.1 == k' <;> cases mapHasKey m k' <;> cases k == k' <;> simp

/-- Key membership after the insertion loop of `replace`: the keys of the
accumulator plus the keys derived from the items. -/
theorem mapHasKey_replaceFold (items : List KubeObject) :
    ∀ (m : StoreMap) (k : Option String),
      mapHasKey (items.foldl (fun acc object => mapSet acc (keyFunc object) object) m) k = true
        ↔ (mapHasKey m k = true ∨ k ∈ items.map keyFunc) := by
  induction items with
  | nil => simp
  | cons o items ih =>
      intro m k
      rw [List.foldl_cons, ih, mapHasKey_mapSet]
      simp only [Bool.or_eq_true, beq_iff_eq, List.map_cons, List.mem_cons]
      constructor
      · rintro (⟨h | h⟩ | h)
        · exact Or.inl h
        · exact Or.inr (Or.inl h.symm)
        · exact Or.inr (Or.inr h)
      · rintro (h | h | h)
        · exact Or.inl (Or.inl h)
        · exact Or.inl (Or.inr h.symm)
        · exact Or.inr h

/-- Value lookup after the insertion loop of `replace`: the last inserted
item whose key matches, falling back to the accumulator. -/
theorem mapGet_replaceFold (items : List KubeObject) :
    ∀ (m : StoreMap) (k : Option String),
      mapGet (items.foldl (fun acc object => mapSet acc (keyFunc object) object) m) k =
        match (items.filter fun o' => keyFunc o' == k).getLast? with
        | some o' => some o'
        | none => mapGet m k := by
  induction items with
  | nil => intro m k; rfl
  | cons o items ih =>
      intro m k
      rw [List.foldl_cons, ih]
      by_cases h : keyFunc o = k
      · rw [List.filter_cons_of_pos (by simpa using h)]
        cases hlast : (items.filter fun o' => keyFunc o' == k).getLast? with
        | some o'' =>
            have hcons : ((o :: items.filter fun o' => keyFunc o' == k).getLast?) = some o'' := by
              rw [List.getLast?_cons, hlast]
              rfl
            rw [hcons]
        | none =>
            have hnil : (items.filter fun o' => keyFunc o' == k) = [] :=
              List.getLast?_eq_none_iff.mp hlast
            rw [hnil]
            subst h
            simp [mapGet_mapSet_self]
      · rw [List.filter_cons_of_neg (by simpa using h)]
        cases hlast : (items.filter fun o' => keyFunc o' == k).getLast? with
        | some o'' => rfl
        | none => simp [mapGet_mapSet_ne _ _ _ _ h]

/-- The synced latch never reverts: every store mutation preserves
`synced = true`. -/
theorem applyStoreOp_synced (s : Store) (op : StoreOp) (h : s.synced = true) :
    (applyStoreOp s op).synced = true := by
  cases op <;>
    simp [applyStoreOp, Store.add, Store.update, Store.delete, Store.replace, Store.clear, h]

/-- The synced latch never reverts under any sequence of store calls. -/
theorem applyStoreOps_synced (ops : List StoreOp) :
    ∀ s : Store, s.synced = true → (applyStoreOps s ops).synced = true := by
  induction ops with
  | nil => intro s h; exact h
  | cons op ops ih =>
      intro s h
      exact ih (applyStoreOp s op) (applyStoreOp_synced s op h)

/-- C4: after `replace(items)` the store maps exactly the keys derived
from the items — each such key to the (last) corresponding item — every
prior key not derived from the items is absent, and the `hasSynced` latch
is resolved `true` and remains `true` under every sequence of subsequent
store calls. -/
theorem store_replace_spec (s : Store) (items : List KubeObject) :
    (∀ k, mapHasKey (s.replace items).map k = true ↔ k ∈ items.map keyFunc)
    ∧ (∀ object ∈ items,
        (items.filter fun o' => keyFunc o' == keyFunc object).getLast? = some object →
        (s.replace items).getByKey (keyFunc object) = some object)
    ∧ (∀ k, mapHasKey s.map k = true → k ∉ items.map keyFunc →
        mapHasKey (s.replace items).map k = false)
    ∧ (s.replace items).synced = true
    ∧ (∀ ops : List StoreOp, (applyStoreOps (s.replace items) ops).synced = true) := by
  refine ⟨fun k => ?_, fun object _ hlast => ?_, fun k _ hk => ?_, rfl, fun ops => ?_⟩
  · rw [Store.replace]
    simpa [mapHasKey] using mapHasKey_replaceFold items [] k
  · rw [Store.replace, Store.getByKey]
    have := mapGet_replaceFold items s.clear.map (keyFunc object)
    rw [this, hlast]
  · rw [Store.replace]
    have h1 := mapHasKey_replaceFold items s.clear.map k
    rcases hb : mapHasKey (items.foldl
        (fun acc object => mapSet acc (keyFunc object) object) s.clear.map) k with _ | _
    · rfl
    · rw [hb] at h1
      rcases h1.mp rfl with h | h
      · simp [Store.clear, mapHasKey] at h
      · exact absurd h hk
  · exact applyStoreOps_synced ops _ rfl

theorem store_replace_spec_witness :
    (mapHasKey ((⟨[(some "x", sampleObjX)], false⟩ : Store).replace
        [sampleObjA, sampleObjB]).map (some "a") = true)
    ∧ ((⟨[(some "x", sampleObjX)], false⟩ : Store).replace
        [sampleObjA, sampleObjB]).getByKey (some "a") = some sampleObjA
    ∧ (mapHasKey ((⟨[(some "x", sampleObjX)], false⟩ : Store).replace
        [sampleObjA, sampleObjB]).map (some "x") = false)
    ∧ ((⟨[(some "x", sampleObjX)], false⟩ : Store).replace
        [sampleObjA, sampleObjB]).synced = true
    ∧ (applyStoreOps ((⟨[(some "x", sampleObjX)], false⟩ : Store).replace
        [sampleObjA, sampleObjB]) [StoreOp.clear, StoreOp.del sampleObjA]).synced = true := by
  obtain ⟨h1, h2, h3, h4, h5⟩ :=
    store_replace_spec ⟨[(some "x", sampleObjX)], false⟩ [sampleObjA, sampleObjB]
  exact ⟨(h1 (some "a")).mpr (by decide), h2 sampleObjA (by decide) (by decide),
    h3 (some "x") (by decide) (by decide), h4, h5 [StoreOp.clear, StoreOp.del sampleObjA]⟩

/-- C7 counterexample: `randomize` rounds (JavaScript `Math.round`), it
does not floor — at `d = 1` and draw `r = 1/2`, it returns `2` while
`⌊d · (1 + r)⌋ = 1`, and `2` lies outside the claimed half-open interval
`[d, 2d) = [1, 2)`. -/
theorem randomize_floor_counterexample :
    randomize 1 (1/2) = 2
    ∧ (⌊(1 : ℚ) * (1 + 1/2)⌋ : ℤ) = 1
    ∧ ¬ (randomize 1 (1/2) < 2 * 1) := by
  refine ⟨?_, ?_, ?_⟩ <;> norm_num [randomize]

/-- C7 amended: for every duration `d` (a natural number, as at both call
sites) and every draw `r` uniform in `[0, 1)`, `randomize d r` equals
`⌊d · (1 + r) + 1/2⌋` (round-half-up, i.e. JavaScript `Math.round`), and
consequently lies in the *closed* interval `[d, 2d]`. -/
theorem randomize_round_bounds (d : ℕ) (r : ℚ) (h0 : 0 ≤ r) (h1 : r < 1) :
    randomize d r = ⌊(d : ℚ) * (1 + r) + 1/2⌋
    ∧ (d : ℤ) ≤ randomize d r
    ∧ randomize d r ≤ 2 * d := by
  refine ⟨by rw [randomize]; congr 1; ring, ?_, ?_⟩
  · rw [randomize]
    apply Int.le_floor.mpr
    push_cast
    have hd : (0 : ℚ) ≤ (d : ℚ) := Nat.cast_nonneg d
    nlinarith [hd]
  · rw [randomize]
    have hx : (d : ℚ) * (r + 1) + 1/2 < ((2 * d + 1 : ℤ) : ℚ) := by
      push_cast
      have hd : (0 : ℚ) ≤ (d : ℚ) := Nat.cast_nonneg d
      nlinarith [hd]
    exact Int.lt_add_one_iff.mp (Int.floor_lt.mpr hx)

theorem randomize_round_bounds_witness :
    randomize 300 0 = ⌊(300 : ℚ) * (1 + 0) + 1/2⌋
    ∧ (300 : ℤ) ≤ randomize 300 0
    ∧ randomize 300 0 ≤ 600 := by
  have h := randomize_round_bounds 300 0 (by norm_num) (by norm_num)
  refine ⟨?_, ?_, ?_⟩
  · have h1 := h.1
    norm_num at h1 ⊢
    exact h1
  · have h2 := h.2.1
    norm_num at h2 ⊢
    exact h2
  · have h3 := h.2.2
    norm_num at h3 ⊢
    exact h3

/-- The successor state of `duration()` increments `attempt` and changes
nothing else, in both branches. -/
theorem duration_snd (b : BackoffManager) (draw : ℚ) :
    (b.duration draw).2 = { b with attempt := b.attempt + 1 } := by
  simp only [BackoffManager.duration]
  split <;> rfl

/-- After `k` calls to `duration()` only `attempt` has changed, by `k`. -/
theorem applyCalls_eq (b : BackoffManager) (k : ℕ) :
    applyCalls b k = { b with attempt := b.attempt + k } := by
  induction k with
  | zero => simp [applyCalls]
  | succ k ih =>
      show ((applyCalls b k).duration 0).2 = _
      rw [ih, duration_snd]
      simp [Nat.add_assoc]

/-- Evaluation of the `k`-th `duration()` value on a jitter-free manager. -/
theorem nthDuration_eval (mn mx rd f : ℚ) (k : ℕ) :
    nthDuration (mkBackoffManager mn mx rd f 0) k =
      if logFloor (mx / mn) f < (k : ℤ) then mx
      else Min.min (⌊mn * f ^ k⌋ : ℚ) mx := by
  rw [nthDuration, applyCalls_eq]
  simp only [mkBackoffManager, BackoffManager.duration, ite_self, ne_eq,
    not_true_eq_false, if_false, zero_add]
  split <;> rfl

/-- A rational strictly greater than one is at least `1 + 1/den`. -/
theorem one_add_inv_den_le {f : ℚ} (hf : 1 < f) : 1 + 1 / (f.den : ℚ) ≤ f := by
  have hden : (0 : ℚ) < (f.den : ℚ) := by exact_mod_cast f.den_pos
  have hnum : ((f.den : ℚ)) < (f.num : ℚ) := by
    have h0 := Rat.num_div_den f
    rw [← h0] at hf
    exact (one_lt_div hden).mp hf
  have hnum' : (f.den : ℤ) + 1 ≤ f.num := by
    have h1 : (f.den : ℤ) < f.num := by exact_mod_cast hnum
    omega
  calc 1 + 1 / (f.den : ℚ) = ((f.den : ℚ) + 1) / (f.den : ℚ) := by
        rw [add_div, div_self (ne_of_gt hden)]
    _ ≤ (f.num : ℚ) / (f.den : ℚ) := by
        apply (div_le_div_right hden).mpr
        exact_mod_cast hnum'
    _ = f := Rat.num_div_den f

/-- Bernoulli bound: if `f ^ k` stays at or below `r`, the exponent is at
most the search bound used by `logFloor`. -/
theorem pow_le_imp_le_bound {r f : ℚ} (hf : 1 < f) {k : ℕ} (h : f ^ k ≤ r) :
    k ≤ logSearchBound r f := by
  have hden : (0 : ℚ) < (f.den : ℚ) := by exact_mod_cast f.den_pos
  have hinv : (0 : ℚ) ≤ 1 / (f.den : ℚ) := by positivity
  have hb : 1 + (k : ℚ) * (1 / (f.den : ℚ)) ≤ (1 + 1 / (f.den : ℚ)) ^ k :=
    one_add_mul_le_pow (by linarith) k
  have hp : (1 + 1 / (f.den : ℚ)) ^ k ≤ f ^ k :=
    pow_le_pow_left (by positivity) (one_add_inv_den_le hf) k
  have hr1 : (1 : ℚ) ≤ r := by
    calc (1 : ℚ) = 1 ^ k := (one_pow k).symm
    _ ≤ f ^ k := pow_le_pow_left (by norm_num) (le_of_lt hf) k
    _ ≤ r := h
  have h2 : (k : ℚ) / (f.den : ℚ) ≤ r - 1 := by
    rw [← mul_one_div]
    linarith [hb.trans (hp.trans h)]
  have h3 : (k : ℚ) ≤ (f.den : ℚ) * (r - 1) := by
    calc (k : ℚ) = (k : ℚ) / (f.den : ℚ) * (f.den : ℚ) := by field_simp
    _ ≤ (r - 1) * (f.den : ℚ) := mul_le_mul_of_nonneg_right h2 (le_of_lt hden)
    _ = (f.den : ℚ) * (r - 1) := mul_comm _ _
  have hceilnonneg : (0 : ℤ) ≤ ⌈r⌉ := le_of_lt (Int.ceil_pos.mpr (by linarith))
  have h4 : (k : ℚ) ≤ (f.den : ℚ) * ((⌈r⌉ : ℤ) : ℚ) := by
    refine h3.trans ?_
    apply mul_le_mul_of_nonneg_left _ (le_of_lt hden)
    linarith [Int.le_ceil r]
  have htn : ((⌈r⌉).toNat : ℤ) = ⌈r⌉ := Int.toNat_of_nonneg hceilnonneg
  have hq : (((⌈r⌉).toNat : ℕ) : ℚ) = ((⌈r⌉ : ℤ) : ℚ) := by
    exact_mod_cast htn
  have h5 : (k : ℚ) ≤ ((f.den * (⌈r⌉).toNat : ℕ) : ℚ) := by
    rw [Nat.cast_mul, hq]
    exact h4
  have h6 : k ≤ f.den * (⌈r⌉).toNat := by exact_mod_cast h5
  rw [logSearchBound]
  omega

/-- Past the `logFloor` threshold the power exceeds the ratio. -/
theorem lt_pow_of_logFloor_lt {r f : ℚ} (hf : 1 < f) {k : ℕ}
    (hk : logFloor r f < (k : ℤ)) : r < f ^ k := by
  by_contra hcon
  push_neg at hcon
  have hr1 : (1 : ℚ) ≤ r := by
    calc (1 : ℚ) = 1 ^ k := (one_pow k).symm
    _ ≤ f ^ k := pow_le_pow_left (by norm_num) (le_of_lt hf) k
    _ ≤ r := hcon
  rw [logFloor, if_pos hr1] at hk
  have hle : k ≤ Nat.findGreatest (fun t => f ^ t ≤ r) (logSearchBound r f) :=
    Nat.le_findGreatest (pow_le_imp_le_bound hf hcon) hcon
  have hlt : Nat.findGreatest (fun t => f ^ t ≤ r) (logSearchBound r f) < k := by
    exact_mod_cast hk
  omega

/-- Past the threshold, `duration()` returns `max`, which the claimed
clamped formula also yields. -/
theorem nthDuration_eq_max (mn mx f : ℚ) (hf : 1 < f) (hmn : 0 < mn)
    (hmx : ((⌈mx⌉ : ℤ) : ℚ) = mx) (k : ℕ) (hk : logFloor (mx / mn) f < (k : ℤ)) :
    nthDuration (mkBackoffManager mn mx 60000 f 0) k = mx
    ∧ mx ≤ (⌊mn * f ^ k⌋ : ℚ) := by
  have hrf : mx / mn < f ^ k := lt_pow_of_logFloor_lt hf hk
  have h1 : mx < mn * f ^ k := by
    rw [div_lt_iff hmn] at hrf
    linarith [hrf]
  have h2 : (⌈mx⌉ : ℤ) ≤ ⌊mn * f ^ k⌋ := by
    apply Int.le_floor.mpr
    rw [hmx]
    exact le_of_lt h1
  have h3 : mx ≤ (⌊mn * f ^ k⌋ : ℚ) := by
    rw [← hmx]
    exact_mod_cast h2
  rw [nthDuration_eval, if_pos hk]
  exact ⟨rfl, h3⟩

/-- At the source defaults, the backoff threshold
`⌊log(15000/800)/log(1.5)⌋` is `7`. -/
theorem logFloor_defaults : logFloor ((15000 : ℚ) / 800) (3 / 2) = 7 := by
  rw [logFloor, if_pos (by norm_num)]
  have hfg : Nat.findGreatest (fun t => ((3 : ℚ) / 2) ^ t ≤ 15000 / 800)
      (logSearchBound ((15000 : ℚ) / 800) (3 / 2)) = 7 := by
    rw [Nat.findGreatest_eq_iff]
    refine ⟨?_, fun _ => by norm_num, fun n h7 _ hP => ?_⟩
    · have hceil : (⌈(15000 : ℚ) / 800⌉ : ℤ) = 19 := by
        rw [Int.ceil_eq_iff]
        norm_num
      have hden : 1 ≤ ((3 : ℚ) / 2).den := ((3 : ℚ) / 2).den_pos
      rw [logSearchBound, hceil]
      calc 7 ≤ 1 * (19 : ℤ).toNat + 1 := by simp
      _ ≤ ((3 : ℚ) / 2).den * (19 : ℤ).toNat + 1 := by
          have := Nat.mul_le_mul_right (19 : ℤ).toNat hden
          omega
    · have h8 : ((3 : ℚ) / 2) ^ 8 ≤ ((3 : ℚ) / 2) ^ n :=
        pow_le_pow_right (by norm_num) (by omega)
      norm_num at h8 hP
      linarith
  rw [hfg]
  rfl

/-- C5: on a jitter-free manager with `1 < factor`, `0 < min ≤ max` and an
integral `max`, the `k`-th `duration()` call returns `min·factor^k`
clamped to `max`, i.e. `min(⌊min·factor^k⌋, max)`; past the logarithmic
threshold the value is exactly `max`; and with the source defaults
(`min = 800`, `max = 15000`, `factor = 1.5`) the sequence begins
`800, 1200, 1800, 2700, 4050, 6075, 9112, 13668, 15000, 15000`. -/
theorem backoff_duration_formula (mn mx f : ℚ) (hf : 1 < f) (hmn : 0 < mn)
    (hle : mn ≤ mx) (hmx : ((⌈mx⌉ : ℤ) : ℚ) = mx) :
    (∀ k : ℕ, nthDuration (mkBackoffManager mn mx 60000 f 0) k
        = Min.min (⌊mn * f ^ k⌋ : ℚ) mx)
    ∧ (∀ k : ℕ, logFloor (mx / mn) f + 1 ≤ (k : ℤ) →
        nthDuration (mkBackoffManager mn mx 60000 f 0) k = mx)
    ∧ (List.range 10).map (nthDuration (mkBackoffManager 800 15000 60000 (3/2) 0))
        = [800, 1200, 1800, 2700, 4050, 6075, 9112, 13668, 15000, 15000] := by
  refine ⟨fun k => ?_, fun k hk => ?_, ?_⟩
  · by_cases hk : logFloor (mx / mn) f < (k : ℤ)
    · obtain ⟨hval, hfloor⟩ := nthDuration_eq_max mn mx f hf hmn hmx k hk
      rw [hval, min_eq_right hfloor]
    · rw [nthDuration_eval, if_neg hk]
  · exact (nthDuration_eq_max mn mx f hf hmn hmx k (by omega)).1
  · have he : ∀ k : ℕ, nthDuration (mkBackoffManager 800 15000 60000 (3/2) 0) k
        = if (7 : ℤ) < (k : ℤ) then 15000 else Min.min (⌊(800 : ℚ) * (3/2) ^ k⌋ : ℚ) 15000 := by
      intro k
      rw [nthDuration_eval, logFloor_defaults]
    rw [show List.range 10 = [0, 1, 2, 3, 4, 5, 6, 7, 8, 9] from rfl]
    simp only [List.map_cons, List.map_nil, he]
    norm_num [min_def]

theorem backoff_duration_formula_witness :
    nthDuration (mkBackoffManager 800 15000 60000 (3/2) 0) 8 = 15000 := by
  have h := backoff_duration_formula 800 15000 (3/2) (by norm_num) (by norm_num)
    (by norm_num) (by norm_num)
  exact h.2.1 8 (by rw [logFloor_defaults]; norm_num)

end DashboardCache
